import Mathlib

/-!
# Verification of the Platform Detection & Adapter subsystem

Shallow embedding of `git-platform-detector.ts`, the platform adapter
factory, and the GitHub/GitLab adapters of the Auto-Claude repository.
Pure string manipulation (URL parsing, host classification) is translated
directly; subprocess, filesystem and timer effects are modelled by
explicit oracles and state passing.
-/

namespace AutoClaude

/-! ## String utilities (semantics of the JS string operations used) -/

/-- JS `String.prototype.trim` on a character list: drop whitespace from
both ends. -/
def trimList (l : List Char) : List Char :=
  ((l.dropWhile Char.isWhitespace).reverse.dropWhile Char.isWhitespace).reverse

/-- JS `String.prototype.trim`. -/
def strTrim (s : String) : String := ⟨trimList s.data⟩

/-- JS `String.prototype.toLowerCase` (ASCII fragment, sufficient for
hostnames). -/
def strToLower (s : String) : String := ⟨s.data.map Char.toLower⟩

/-- Split a character list on a separator character.  Mirrors how the
anchored JS regexes `([^/]+)/([^/]+)/...` decompose a string: the result
pieces contain no separator and joining them with the separator restores
the input. -/
def splitCh (sep : Char) : List Char → List (List Char)
  | [] => [[]]
  | c :: t =>
    match splitCh sep t with
    | [] => [[]]
    | h :: r => if c = sep then [] :: h :: r else (c :: h) :: r

/-- Substring test on lists (JS `String.prototype.includes`). -/
def listContainsSub (pat : List Char) : List Char → Bool
  | [] => pat.isEmpty
  | c :: t => pat.isPrefixOf (c :: t) || listContainsSub pat t

/-- JS `String.prototype.includes`. -/
def containsSub (s pat : String) : Bool := listContainsSub pat.data s.data

/-! ## `GitPlatform` and `createPlatform`
(`git-platform-detector.ts`) -/

/-- The `GitPlatform` descriptor.  `type` is a string because the factory
dispatches on its runtime value (the TS type is the union
`'github' | 'gitlab'`, but the factory guards against other values). -/
structure GitPlatform where
  type : String
  host : String
  owner : String
  repo : String
  fullName : String
  isGitHub : Bool
  isGitLab : Bool
  isSelfHosted : Bool
deriving DecidableEq, Repr

/-- Model of `createPlatform` from `git-platform-detector.ts`: classify the host and
assemble the descriptor. -/
def createPlatform (host owner repo : String) : GitPlatform :=
  let normalizedHost := strToLower host
  let isGitHub := normalizedHost == "github.com" || containsSub normalizedHost "github"
  let isGitLab := normalizedHost == "gitlab.com" || containsSub normalizedHost "gitlab" ||
      (!isGitHub && normalizedHost != "github.com")
  let isSelfHosted := normalizedHost != "github.com" && normalizedHost != "gitlab.com"
  { type := if isGitHub then "github" else "gitlab"
    host := normalizedHost
    owner := owner
    repo := repo
    fullName := owner ++ "/" ++ repo
    isGitHub := isGitHub
    isGitLab := isGitLab
    isSelfHosted := isSelfHosted }

/-! ## The two URL shapes of `parseGitRemoteUrl`

The JS regexes are
`^https?:\/\/([^/]+)\/([^/]+)\/([^/]+?)(?:\.git)?$` and
`^git@([^:]+):([^/]+)\/([^/]+?)(?:\.git)?$`.
Since every character class excludes the separator that follows it, a match
decomposes the input uniquely; the lazy third group together with the
optional `(?:\.git)?` strips one trailing `.git` provided a non-empty
repo name remains. -/

/-- Semantics of `([^/]+?)(?:\.git)?$` applied to the final '/'-free
segment: the shortest non-empty prefix `p` with `tail = p` or
`tail = p ++ ".git"`.  Strips a trailing `".git"` when at least one
character precedes it. -/
def stripGit (tail : List Char) : Option (List Char) :=
  if tail = [] then none
  else if ".git".data.isSuffixOf tail ∧ 4 < tail.length then
    some (tail.take (tail.length - 4))
  else some tail

/-- Semantics of `^https?:\/\/` — strip the scheme, or fail. -/
def dropScheme (url : List Char) : Option (List Char) :=
  if "https://".data.isPrefixOf url then some (url.drop 8)
  else if "http://".data.isPrefixOf url then some (url.drop 7)
  else none

/-- Match of the HTTPS regex, returning the three capture groups
(host, owner, repo). -/
def httpsMatch (url : List Char) : Option (List Char × List Char × List Char) :=
  match dropScheme url with
  | none => none
  | some rest =>
    match splitCh '/' rest with
    | [host, owner, tail] =>
      if host = [] ∨ owner = [] then none
      else
        match stripGit tail with
        | some repo => some (host, owner, repo)
        | none => none
    | _ => none

/-- Match of the SSH regex `^git@([^:]+):([^/]+)\/([^/]+?)(?:\.git)?$`,
returning the three capture groups. -/
def sshMatch (url : List Char) : Option (List Char × List Char × List Char) :=
  if "git@".data.isPrefixOf url then
    let after := url.drop 4
    let host := after.takeWhile (· ≠ ':')
    match after.dropWhile (· ≠ ':') with
    | [] => none
    | _ :: rest =>
      if host = [] then none
      else
        match splitCh '/' rest with
        | [owner, tail] =>
          if owner = [] then none
          else
            match stripGit tail with
            | some repo => some (host, owner, repo)
            | none => none
        | _ => none
  else none

/-- Model of `parseGitRemoteUrl` from `git-platform-detector.ts`. -/
def parseGitRemoteUrl (remoteUrl : String) : Option GitPlatform :=
  let url := trimList remoteUrl.data
  match httpsMatch url with
  | some (h, o, r) => some (createPlatform ⟨h⟩ ⟨o⟩ ⟨r⟩)
  | none =>
    match sshMatch url with
    | some (h, o, r) => some (createPlatform ⟨h⟩ ⟨o⟩ ⟨r⟩)
    | none => none

/-! ## Platform detector (`detectGitPlatform` and its cache)

`execSync('git remote get-url <name>')` is modelled by an oracle
`env : String → String → Option String` mapping (resolved path, remote
name) to the raw command output, with `none` meaning the command threw
(not a repository / no such remote).  `path.resolve` is modelled by an
abstract `resolve` function.  The state carries the module-level
`platformCache` and a counter of git invocations issued so far. -/

/-- The module-level `platformCache` plus an instrumentation counter for
external `git` process invocations. -/
structure DetectorState where
  cache : List (String × Option GitPlatform)
  gitCalls : Nat
deriving Repr, DecidableEq

/-- Semantics of `Map.set`: newest binding wins, old binding for the key dropped. -/
def cacheSet (k : String) (v : Option GitPlatform)
    (c : List (String × Option GitPlatform)) : List (String × Option GitPlatform) :=
  (k, v) :: c.filter (fun e => !(e.1 == k))

/-- Model of `clearPlatformCache`. -/
def clearPlatformCache (st : DetectorState) : DetectorState :=
  { st with cache := [] }

/-- Model of `clearProjectPlatformCache`. -/
def clearProjectPlatformCache (resolve : String → String) (projectPath : String)
    (st : DetectorState) : DetectorState :=
  { st with cache := st.cache.filter (fun e => !(e.1 == resolve projectPath)) }

/-- Model of `getGitRemoteUrl`: run the git command (one external invocation), trim
its output, and map a thrown error or empty output to `none`. -/
def getGitRemoteUrl (env : String → String → Option String)
    (projectPath remoteName : String) : Option String :=
  match env projectPath remoteName with
  | none => none
  | some out =>
    let t := strTrim out
    if t = "" then none else some t

/-- Model of `detectGitPlatform`: resolve the path, consult the cache unless
`forceRefresh`, otherwise read the remote URL (one git invocation), parse
it, and cache the result (which may be `none`). -/
def detectGitPlatform (resolve : String → String)
    (env : String → String → Option String)
    (projectPath remoteName : String) (forceRefresh : Bool)
    (st : DetectorState) : Option GitPlatform × DetectorState :=
  let normalizedPath := resolve projectPath
  if !forceRefresh && (st.cache.lookup normalizedPath).isSome then
    ((st.cache.lookup normalizedPath).getD none, st)
  else
    match getGitRemoteUrl env normalizedPath remoteName with
    | none => (none, ⟨cacheSet normalizedPath none st.cache, st.gitCalls + 1⟩)
    | some url =>
      let platform := parseGitRemoteUrl url
      (platform, ⟨cacheSet normalizedPath platform st.cache, st.gitCalls + 1⟩)

/-! ## Adapter factory (`PlatformAdapterFactory`) -/

/-- A constructed adapter instance, carrying the descriptor it was built
from (`new GitHubAdapter(platform)` / `new GitLabAdapter(platform)`). -/
inductive PlatformAdapter where
  | gitHubAdapter (platform : GitPlatform)
  | gitLabAdapter (platform : GitPlatform)
deriving DecidableEq, Repr

/-- Model of `PlatformAdapterFactory.createAdapter`: pure dispatch on
`platform.type`; a thrown `Error` is modelled as `Except.error` carrying
the message. -/
def createAdapter (platform : GitPlatform) : Except String PlatformAdapter :=
  if platform.type = "github" then .ok (.gitHubAdapter platform)
  else if platform.type = "gitlab" then .ok (.gitLabAdapter platform)
  else .error ("Unsupported platform type: " ++ platform.type)

/-- Model of `PlatformAdapterFactory.getAdapter`: detect (with default options),
throw if detection yields null, otherwise dispatch. -/
def getAdapter (resolve : String → String)
    (env : String → String → Option String) (projectPath : String)
    (st : DetectorState) : Except String PlatformAdapter × DetectorState :=
  let r := detectGitPlatform resolve env projectPath "origin" false st
  match r.1 with
  | none =>
    (.error "Could not detect git platform. Make sure the project has a git remote configured.", r.2)
  | some platform => (createAdapter platform, r.2)

/-! ## Adapter operations (`github-adapter.ts` / `gitlab-adapter.ts`)

Each subprocess invocation is abstracted as an `Except String String`
argument: `.ok out` is the captured stdout of a successful call, `.error e`
is a thrown error (non-zero exit, network failure, missing binary) with
message `e`.  JSON/YAML parsing done by external libraries is abstracted
as parsing oracles.  Thrown `PlatformAdapterError`s become `Except.error`
values of the structure below. -/

/-- Model of `PlatformAdapterError` from `base-adapter.ts`; `originalError` keeps
the message of the underlying cause when one was attached. -/
structure PlatformAdapterError where
  message : String
  platform : String
  originalError : Option String
deriving DecidableEq, Repr

/-- The `PlatformUser` shape `{username, name?, avatarUrl?}`. -/
structure PlatformUser where
  username : String
  name : Option String
  avatarUrl : Option String
deriving DecidableEq, Repr

/-- The `Organization` shape (`{login, avatarUrl?}`). -/
structure Organization where
  login : String
  avatarUrl : Option String
deriving DecidableEq, Repr

/-- The `CreateRepoOptions` shape. -/
structure CreateRepoOptions where
  name : String
  description : Option String
  isPrivate : Bool
  projectPath : String
  owner : Option String
deriving DecidableEq, Repr

/-- JS `options.owner || fallback` (empty string is falsy). -/
def jsOr (o : Option String) (fallback : String) : String :=
  match o with
  | none => fallback
  | some s => if s = "" then fallback else s

/-- Semantics of `output.trim().split('\n').filter(b => b.length > 0)`. -/
def linesNonEmpty (out : String) : List String :=
  ((splitCh '\n' (trimList out.data)).map (fun l => (⟨l⟩ : String))).filter
    (fun l => !(l == ""))

/-- Membership in the character class `[A-Za-z0-9_.-]`. -/
def isRepoChar (c : Char) : Bool :=
  c.isAlpha || c.isDigit || c = '_' || c = '.' || c = '-'

/-- The validation regex `^[A-Za-z0-9_.-]+$` used for repository names. -/
def validRepoName (s : String) : Bool :=
  !s.data.isEmpty && s.data.all isRepoChar

/-- The validation regex `^[A-Za-z0-9_.-]+\/[A-Za-z0-9_.-]+$` used by the
GitHub adapter for `owner/repo` arguments: exactly one `/`, both segments
non-empty runs of the allowed characters. -/
def validRepoFullName (s : String) : Bool :=
  match splitCh '/' s.data with
  | [a, b] => !a.isEmpty && !b.isEmpty && a.all isRepoChar && b.all isRepoChar
  | _ => false

/-! ### GitHub adapter operations -/

/-- Model of `GitHubAdapter.getToken`: `gh auth token`, trimmed; empty token throws
inside the `try`, and every failure is re-wrapped. -/
def githubGetToken (tokenO : Except String String) :
    Except PlatformAdapterError String :=
  match tokenO with
  | .ok out =>
    let token := strTrim out
    if token = "" then
      .error ⟨"Failed to get GitHub token", "github",
        some "No token found. Please authenticate first."⟩
    else .ok token
  | .error e => .error ⟨"Failed to get GitHub token", "github", some e⟩

/-- Model of `GitHubAdapter.getUser`: `gh api user` then `JSON.parse` (oracle
`parse`; `.error m` is a parse exception). -/
def githubGetUser (userO : Except String String)
    (parse : String → Except String PlatformUser) :
    Except PlatformAdapterError PlatformUser :=
  match userO with
  | .error e => .error ⟨"Failed to get GitHub user info", "github", some e⟩
  | .ok json =>
    match parse json with
    | .error m => .error ⟨"Failed to get GitHub user info", "github", some m⟩
    | .ok u => .ok u

/-- Model of `GitHubAdapter.createRepo`: validate the name, fetch the authenticated
username, run `gh repo create`; every thrown error is wrapped. -/
def githubCreateRepo (opts : CreateRepoOptions)
    (usernameO : Except String String) (createO : Except String Unit) :
    Except PlatformAdapterError (String × String) :=
  if validRepoName opts.name = false then
    .error ⟨"Failed to create GitHub repository", "github",
      some "Invalid repository name. Use only letters, numbers, hyphens, underscores, and periods."⟩
  else
    match usernameO with
    | .error e => .error ⟨"Failed to create GitHub repository", "github", some e⟩
    | .ok raw =>
      let username := strTrim raw
      let owner := jsOr opts.owner username
      match createO with
      | .error e => .error ⟨"Failed to create GitHub repository", "github", some e⟩
      | .ok _ =>
        .ok (owner ++ "/" ++ opts.name,
          "https://github.com/" ++ owner ++ "/" ++ opts.name)

/-- Model of `GitHubAdapter.getBranches`: format validation happens before the
`gh api` call; the second component counts subprocess invocations. -/
def githubGetBranches (repo : String) (branchesO : Except String String) :
    Except PlatformAdapterError (List String) × Nat :=
  if validRepoFullName repo = false then
    (.error ⟨"Failed to get branches for " ++ repo, "github",
      some "Invalid repository format. Expected: owner/repo"⟩, 0)
  else
    match branchesO with
    | .ok out => (.ok (linesNonEmpty out), 1)
    | .error e =>
      (.error ⟨"Failed to get branches for " ++ repo, "github", some e⟩, 1)

/-- Model of `GitHubAdapter.addGitRemote`: format validation first, then the
remove-origin probe (1 or 2 git calls, errors swallowed), then
`git remote add` (third component counts subprocess invocations). -/
def githubAddGitRemote (repoFullName : String) (hadOrigin : Bool)
    (addO : Except String Unit) : Except PlatformAdapterError String × Nat :=
  if validRepoFullName repoFullName = false then
    (.error ⟨"Failed to add git remote", "github",
      some "Invalid repository format. Expected: owner/repo"⟩, 0)
  else
    let removeCalls := if hadOrigin then 2 else 1
    match addO with
    | .ok _ => (.ok ("https://github.com/" ++ repoFullName ++ ".git"), removeCalls + 1)
    | .error e => (.error ⟨"Failed to add git remote", "github", some e⟩, removeCalls + 1)

/-- Model of `GitHubAdapter.listOrganizations`: degrade to `[]` on any failure;
lines that fail `JSON.parse` (oracle `parseLine`) are skipped. -/
def githubListOrganizations (orgsO : Except String String)
    (parseLine : String → Option Organization) : List Organization :=
  match orgsO with
  | .error _ => []
  | .ok out =>
    (((splitCh '\n' (trimList out.data)).map (fun l => (⟨l⟩ : String))).filter
      (fun l => !(strTrim l == ""))).filterMap parseLine

/-! ### GitLab adapter operations -/

/-- JS `parseInt(s, 10)`: optional sign then the leading digit run;
`none` is `NaN`. -/
def parseIntJs (l : List Char) : Option Int :=
  let digitsVal : List Char → Option Nat := fun l =>
    let ds := l.takeWhile Char.isDigit
    if ds.isEmpty then none
    else some (ds.foldl (fun acc c => acc * 10 + (c.toNat - '0'.toNat)) 0)
  match l with
  | '-' :: rest => (digitsVal rest).map (fun n => -(n : Int))
  | '+' :: rest => (digitsVal rest).map (fun n => (n : Int))
  | _ => (digitsVal l).map (fun n => (n : Int))

/-- Model of `GitLabAdapter.getProjectId` with its module-level `projectIdCache`.
The cached value is `Option Int` because `parseInt` may produce `NaN`
(modelled `none`), which the code caches without checking.  Third
component counts subprocess invocations. -/
def gitlabGetProjectId (cache : List (String × Option Int)) (fullPath : String)
    (idO : Except String String) :
    Except PlatformAdapterError (Option Int) × List (String × Option Int) × Nat :=
  match cache.lookup fullPath with
  | some v => (.ok v, cache, 0)
  | none =>
    match idO with
    | .ok out =>
      let pid := parseIntJs (trimList out.data)
      (.ok pid, (fullPath, pid) :: cache, 1)
    | .error e =>
      (.error ⟨"Failed to get project ID for " ++ fullPath, "gitlab", some e⟩, cache, 1)

/-- Model of `GitLabAdapter.getBranches`: resolve the project id (caught
`PlatformAdapterError`s are re-wrapped with the inner message as cause),
then list branches.  No format validation of `repo` occurs.  Third
component counts subprocess invocations. -/
def gitlabGetBranches (cache : List (String × Option Int)) (repo : String)
    (idO branchesO : Except String String) :
    Except PlatformAdapterError (List String) × List (String × Option Int) × Nat :=
  match gitlabGetProjectId cache repo idO with
  | (.error e, c, n) =>
    (.error ⟨"Failed to get branches for " ++ repo, "gitlab", some e.message⟩, c, n)
  | (.ok _, c, n) =>
    match branchesO with
    | .ok out => (.ok (linesNonEmpty out), c, n + 1)
    | .error e =>
      (.error ⟨"Failed to get branches for " ++ repo, "gitlab", some e⟩, c, n + 1)

/-- Model of `GitLabAdapter.getToken`: read the host-keyed YAML config.  `home` is
`process.env.HOME`/`USERPROFILE`; `fileExists` is `existsSync`;
`configO` is the read-and-`loadYaml` step, `.ok hosts` giving the
`hosts.<host>.token` lookup table; inner `PlatformAdapterError`s are
re-wrapped by the outer catch. -/
def gitlabGetToken (host : String) (home : Option String) (fileExists : Bool)
    (configO : Except String (String → Option String)) :
    Except PlatformAdapterError String :=
  match home with
  | none =>
    .error ⟨"Failed to get GitLab token", "gitlab",
      some "Could not determine home directory"⟩
  | some _ =>
    if fileExists = false then
      .error ⟨"Failed to get GitLab token", "gitlab",
        some "GitLab config file not found. Please authenticate first."⟩
    else
      match configO with
      | .error e => .error ⟨"Failed to get GitLab token", "gitlab", some e⟩
      | .ok hosts =>
        match hosts host with
        | none =>
          .error ⟨"Failed to get GitLab token", "gitlab",
            some ("No token found for " ++ host ++ ". Please authenticate first.")⟩
        | some token => .ok token

/-- Model of `GitLabAdapter.getUser`: `glab api /user` then `JSON.parse`. -/
def gitlabGetUser (userO : Except String String)
    (parse : String → Except String PlatformUser) :
    Except PlatformAdapterError PlatformUser :=
  match userO with
  | .error e => .error ⟨"Failed to get GitLab user info", "gitlab", some e⟩
  | .ok json =>
    match parse json with
    | .error m => .error ⟨"Failed to get GitLab user info", "gitlab", some m⟩
    | .ok u => .ok u

/-- Model of `GitLabAdapter.createRepo`: run `glab repo create`, then `getUser` to
derive the full name; a caught inner `PlatformAdapterError` from
`getUser` is re-wrapped with its message as cause. -/
def gitlabCreateRepo (host : String) (opts : CreateRepoOptions)
    (createO : Except String Unit) (userO : Except String String)
    (parse : String → Except String PlatformUser) :
    Except PlatformAdapterError (String × String) :=
  match createO with
  | .error e => .error ⟨"Failed to create GitLab repository", "gitlab", some e⟩
  | .ok _ =>
    match gitlabGetUser userO parse with
    | .error e =>
      .error ⟨"Failed to create GitLab repository", "gitlab", some e.message⟩
    | .ok user =>
      let owner := jsOr opts.owner user.username
      .ok (owner ++ "/" ++ opts.name,
        "https://" ++ host ++ "/" ++ owner ++ "/" ++ opts.name)

/-- Model of `GitLabAdapter.addGitRemote`: no format validation; remove-origin
probe then `git remote add` (second component counts invocations). -/
def gitlabAddGitRemote (host : String) (repoFullName : String) (hadOrigin : Bool)
    (addO : Except String Unit) : Except PlatformAdapterError String × Nat :=
  let remoteUrl := "https://" ++ host ++ "/" ++ repoFullName ++ ".git"
  let removeCalls := if hadOrigin then 2 else 1
  match addO with
  | .ok _ => (.ok remoteUrl, removeCalls + 1)
  | .error e => (.error ⟨"Failed to add git remote", "gitlab", some e⟩, removeCalls + 1)

/-- Model of `GitLabAdapter.listOrganizations`: degrade to `[]` on any failure;
unparseable lines skipped. -/
def gitlabListOrganizations (orgsO : Except String String)
    (parseLine : String → Option Organization) : List Organization :=
  match orgsO with
  | .error _ => []
  | .ok out =>
    (((splitCh '\n' (trimList out.data)).map (fun l => (⟨l⟩ : String))).filter
      (fun l => !(strTrim l == ""))).filterMap parseLine

/-! ## `startAuth` (both adapters)

The spawned login process is modelled by a script: a list of stdout/stderr
data events followed by a terminal event (`close` with an exit code, or a
spawn `error`).  The regex scraping of the combined output is abstracted
as an extraction oracle; `shell.openExternal` success is the `browserOk`
oracle.  The `extractionInProgress` flag is a reentrancy guard that is
always false at entry under the single-threaded event loop and is not
represented.  Both functions are total: `startAuth` always resolves. -/

/-- The `AuthStartResult` shape from `base-adapter.ts`. -/
structure AuthStartResult where
  success : Bool
  message : Option String
  deviceCode : Option String
  authUrl : Option String
  browserOpened : Bool
  fallbackUrl : Option String
deriving DecidableEq, Repr

/-- A chunk arriving on stdout or stderr. -/
inductive AuthEvent where
  | out (s : String)
  | err (s : String)
deriving DecidableEq, Repr

/-- Terminal event of the login process: `close` with exit code (`none`
models termination by signal, `code === 0` is then false) or a spawn
error. -/
inductive AuthTerm where
  | closed (code : Option Int)
  | errored (msg : String)
deriving DecidableEq, Repr

/-- JS `str.replace(' ', '-')`: replace the first space only. -/
def replaceFirstChar (a b : Char) : List Char → List Char
  | [] => []
  | c :: t => if c = a then b :: t else c :: replaceFirstChar a b t

/-- Scan state of `GitHubAdapter.startAuth`. -/
structure GhAuthScan where
  output : String
  errorOutput : String
  deviceCodeExtracted : Bool
  extractedDeviceCode : Option String
  extractedAuthUrl : String
  browserOpened : Bool
deriving DecidableEq, Repr

/-- One data event of `GitHubAdapter.startAuth`: append the chunk, and if
no device code was extracted yet, run the extraction regexes (oracle
`extract`, returning the device-code capture and the optional URL match)
on the combined output; on a match, record the code (spaces dashed), the
URL, and attempt to open the browser exactly once. -/
def ghAuthStep (extract : String → Option (String × Option String))
    (browserOk : Bool) (st : GhAuthScan) (ev : AuthEvent) : GhAuthScan :=
  let st := match ev with
    | .out s => { st with output := st.output ++ s }
    | .err s => { st with errorOutput := st.errorOutput ++ s }
  if st.deviceCodeExtracted then st
  else
    match extract (st.output ++ "\n" ++ st.errorOutput) with
    | none => st
    | some (code, urlOpt) =>
      { st with
        deviceCodeExtracted := true
        extractedDeviceCode := some ⟨replaceFirstChar ' ' '-' code.data⟩
        extractedAuthUrl := urlOpt.getD st.extractedAuthUrl
        browserOpened := browserOk }

/-- Model of `GitHubAdapter.startAuth`: fold the data events, then settle on the
terminal event.  Success is decided by `code === 0` alone. -/
def githubStartAuth (extract : String → Option (String × Option String))
    (browserOk : Bool) (events : List AuthEvent) (term : AuthTerm) :
    AuthStartResult :=
  let st := events.foldl (ghAuthStep extract browserOk)
    ⟨"", "", false, none, "https://github.com/login/device", false⟩
  match term with
  | .closed code =>
    if code = some 0 then
      { success := true
        message := some (if st.browserOpened then
            "Successfully authenticated with GitHub"
          else
            "Authentication successful. Browser could not be opened automatically.")
        deviceCode := st.extractedDeviceCode
        authUrl := some st.extractedAuthUrl
        browserOpened := st.browserOpened
        fallbackUrl := if st.browserOpened then none else some st.extractedAuthUrl }
    else
      { success := false
        message := some "Authentication failed. Please visit the URL manually to complete authentication."
        deviceCode := st.extractedDeviceCode
        authUrl := some st.extractedAuthUrl
        browserOpened := st.browserOpened
        fallbackUrl := some st.extractedAuthUrl }
  | .errored _ =>
    { success := false
      message := some "Failed to start GitHub CLI. Please visit the URL manually to authenticate."
      deviceCode := none
      authUrl := none
      browserOpened := false
      fallbackUrl := some "https://github.com/login/device" }

/-- Scan state of `GitLabAdapter.startAuth`. -/
structure GlAuthScan where
  output : String
  errorOutput : String
  authUrlExtracted : Bool
  extractedAuthUrl : String
  browserOpened : Bool
deriving DecidableEq, Repr

/-- One data event of `GitLabAdapter.startAuth`: the URL regex
`https://<host>/[^\s]+` is the oracle `extract`. -/
def glAuthStep (extract : String → Option String) (browserOk : Bool)
    (st : GlAuthScan) (ev : AuthEvent) : GlAuthScan :=
  let st := match ev with
    | .out s => { st with output := st.output ++ s }
    | .err s => { st with errorOutput := st.errorOutput ++ s }
  if st.authUrlExtracted then st
  else
    match extract (st.output ++ "\n" ++ st.errorOutput) with
    | none => st
    | some url =>
      { st with
        authUrlExtracted := true
        extractedAuthUrl := url
        browserOpened := browserOk }

/-- Model of `GitLabAdapter.startAuth`.  Success is decided by `code === 0`
alone. -/
def gitlabStartAuth (host : String) (extract : String → Option String)
    (browserOk : Bool) (events : List AuthEvent) (term : AuthTerm) :
    AuthStartResult :=
  let st := events.foldl (glAuthStep extract browserOk)
    ⟨"", "", false, "https://" ++ host ++ "/oauth/authorize", false⟩
  match term with
  | .closed code =>
    if code = some 0 then
      { success := true
        message := some (if st.browserOpened then
            "Successfully authenticated with GitLab"
          else
            "Authentication successful. Browser could not be opened automatically.")
        deviceCode := none
        authUrl := some st.extractedAuthUrl
        browserOpened := st.browserOpened
        fallbackUrl := if st.browserOpened then none else some st.extractedAuthUrl }
    else
      { success := false
        message := some "Authentication failed. Please visit the URL manually to complete authentication."
        deviceCode := none
        authUrl := some st.extractedAuthUrl
        browserOpened := st.browserOpened
        fallbackUrl := some st.extractedAuthUrl }
  | .errored _ =>
    { success := false
      message := some "Failed to start GitLab CLI. Please visit the URL manually to authenticate."
      deviceCode := none
      authUrl := none
      browserOpened := false
      fallbackUrl := some ("https://" ++ host ++ "/oauth/authorize") }

/-! ## `GitLabAdapter.createRelease`

The OS temp directory is a key-value store of files.  `Date.now()` is the
environmental timestamp whose string interpolation `nowStr` names the
notes file.  `writeErr` models a thrown `writeFileSync` (no file
created); the spawned `glab release create` consumes the notes-file
content, so its outcome oracle `spawnF` is a function of what the CLI
reads at that path.  The `finally` block unlinks the notes file when it
exists, ignoring unlink errors. -/

/-- The `CreateReleaseOptions` shape. -/
structure CreateReleaseOptions where
  projectPath : String
  version : String
  tagName : String
  title : String
  body : String
  draft : Bool
  prerelease : Bool
deriving DecidableEq, Repr

/-- The `CreateReleaseResult` shape. -/
structure CreateReleaseResult where
  success : Bool
  releaseUrl : Option String
  tagName : Option String
  error : Option String
deriving DecidableEq, Repr

/-- A file store: path ↦ content, newest binding first. -/
abbrev Fs := List (String × String)

/-- Model of `writeFileSync` (overwrite). -/
def fsWrite (fs : Fs) (p c : String) : Fs :=
  (p, c) :: fs.filter (fun e => !(e.1 == p))

/-- Content at a path (`existsSync`/`readFileSync` combined). -/
def fsLookup (fs : Fs) (p : String) : Option String := fs.lookup p

/-- Model of `if (existsSync(p)) unlinkSync(p)`. -/
def fsUnlinkIfExists (fs : Fs) (p : String) : Fs :=
  fs.filter (fun e => !(e.1 == p))

/-- Outcome of the spawned `glab release create` process. -/
inductive SpawnOutcome where
  | exited (code : Option Int) (stdout stderr : String)
  | errored (msg : String)
deriving DecidableEq, Repr

/-- The notes-file path `join(tmpdir(), 'glab-release-notes-' + Date.now() + '.md')`. -/
def glabNotesFileName (tmp nowStr : String) : String :=
  tmp ++ "/glab-release-notes-" ++ nowStr ++ ".md"

/-- Render an exit code for the `glab exited with code ...` message. -/
def exitCodeStr : Option Int → String
  | some i => toString i
  | none => "null"

/-- Model of `GitLabAdapter.createRelease`: write the notes file, spawn the CLI on
it, look up the release URL on success (`releaseUrl?` oracle;
`getReleaseUrl` never throws), and in `finally` delete the notes file if
it exists.  Total: the call never throws. -/
def gitlabCreateRelease (opts : CreateReleaseOptions) (tmp nowStr : String)
    (writeErr : Option String) (spawnF : Option String → SpawnOutcome)
    (releaseUrl? : Option String) (fs : Fs) : CreateReleaseResult × Fs :=
  let nf := glabNotesFileName tmp nowStr
  match writeErr with
  | some msg =>
    ({ success := false, releaseUrl := none, tagName := none, error := some msg },
     fsUnlinkIfExists fs nf)
  | none =>
    let fs₁ := fsWrite fs nf opts.body
    match spawnF (fsLookup fs₁ nf) with
    | .exited code _ stderr =>
      if code = some 0 then
        ({ success := true, releaseUrl := releaseUrl?,
           tagName := some opts.tagName, error := none },
         fsUnlinkIfExists fs₁ nf)
      else
        ({ success := false, releaseUrl := none, tagName := none,
           error := some (if stderr = "" then
               "glab exited with code " ++ exitCodeStr code
             else stderr) },
         fsUnlinkIfExists fs₁ nf)
    | .errored msg =>
      ({ success := false, releaseUrl := none, tagName := none, error := some msg },
       fsUnlinkIfExists fs₁ nf)

/-- Shape of a failure surfaced by an adapter operation: a thrown
`PlatformAdapterError` carrying the platform name and an attached cause. -/
def throwsWith {α : Type} (r : Except PlatformAdapterError α) (plat : String) : Prop :=
  ∃ e, r = .error e ∧ e.platform = plat ∧ e.originalError.isSome = true

end AutoClaude

namespace AutoClaude

/-! ## Lemmas about the split of the anchored regexes -/

/-- A split always yields at least one piece. -/
theorem splitCh_ne_nil (sep : Char) (l : List Char) : splitCh sep l ≠ [] := by
  cases l with
  | nil => simp [splitCh]
  | cons c t =>
    simp only [splitCh]
    cases hs : splitCh sep t with
    | nil => simp
    | cons h r => by_cases hc : c = sep <;> simp [hc]

/-- No piece of a split contains the separator: the capture of a `[^x]+`
class is `x`-free. -/
theorem splitCh_pieces_no_sep (sep : Char) (l : List Char) :
    ∀ p ∈ splitCh sep l, sep ∉ p := by
  induction l with
  | nil => intro p hp; simp [splitCh] at hp; simp [hp]
  | cons c t ih =>
    intro p hp
    simp only [splitCh] at hp
    cases hs : splitCh sep t with
    | nil => exact absurd hs (splitCh_ne_nil sep t)
    | cons h r =>
      rw [hs] at hp
      by_cases hc : c = sep
      · simp only [hc, if_pos rfl] at hp
        rcases List.mem_cons.mp hp with h1 | h2
        · subst h1; simp
        · exact ih p (hs ▸ h2)
      · simp only [if_neg hc] at hp
        rcases List.mem_cons.mp hp with h1 | h2
        · subst h1
          intro hmem
          rcases List.mem_cons.mp hmem with h3 | h4
          · exact hc h3.symm
          · exact ih h (hs ▸ List.mem_cons_self h r) h4
        · exact ih p (hs ▸ List.mem_cons_of_mem h h2)

/-- The number of pieces is the separator count plus one. -/
theorem splitCh_length (sep : Char) (l : List Char) :
    (splitCh sep l).length = l.count sep + 1 := by
  induction l with
  | nil => simp [splitCh]
  | cons c t ih =>
    simp only [splitCh]
    cases hs : splitCh sep t with
    | nil => exact absurd hs (splitCh_ne_nil sep t)
    | cons h r =>
      rw [hs] at ih
      by_cases hc : c = sep
      · simp [hc, List.count_cons, ih]
      · simp only [if_neg hc, List.length_cons]
        simp only [List.length_cons] at ih
        simp [List.count_cons, hc]
        omega

/-! ## Inversion of the URL matchers -/

/-- The owner capture of the HTTPS regex contains no slash. -/
theorem httpsMatch_owner_no_slash {url : List Char} {h o r : List Char}
    (hm : httpsMatch url = some (h, o, r)) : '/' ∉ o := by
  unfold httpsMatch at hm
  split at hm
  · exact absurd hm (by simp)
  · rename_i rest heqd
    split at hm
    · rename_i host owner tail heqs
      split at hm
      · exact absurd hm (by simp)
      · split at hm
        · rename_i hno repo heqg
          simp only [Option.some.injEq, Prod.mk.injEq] at hm
          obtain ⟨-, h2, -⟩ := hm
          subst h2
          exact splitCh_pieces_no_sep '/' rest owner (by rw [heqs]; simp)
        · exact absurd hm (by simp)
    · exact absurd hm (by simp)

/-- The owner capture of the SSH regex contains no slash. -/
theorem sshMatch_owner_no_slash {url : List Char} {h o r : List Char}
    (hm : sshMatch url = some (h, o, r)) : '/' ∉ o := by
  unfold sshMatch at hm
  simp only [] at hm
  split at hm
  · split at hm
    · exact absurd hm (by simp)
    · rename_i c rest heqd
      split at hm
      · exact absurd hm (by simp)
      · rename_i hne
        split at hm
        · rename_i owner tail heqs
          split at hm
          · exact absurd hm (by simp)
          · split at hm
            · rename_i hone repo heqg
              simp only [Option.some.injEq, Prod.mk.injEq] at hm
              obtain ⟨-, h2, -⟩ := hm
              subst h2
              exact splitCh_pieces_no_sep '/' rest owner (by rw [heqs]; simp)
            · exact absurd hm (by simp)
        · exact absurd hm (by simp)
  · exact absurd hm (by simp)

/-- Every parsed descriptor has a slash-free owner. -/
theorem parse_owner_no_slash {url : String} {p : GitPlatform}
    (hp : parseGitRemoteUrl url = some p) : '/' ∉ p.owner.data := by
  unfold parseGitRemoteUrl at hp
  simp only [] at hp
  split at hp
  · rename_i h o r heq
    have hno := httpsMatch_owner_no_slash heq
    simp only [Option.some.injEq] at hp
    subst hp
    exact hno
  · split at hp
    · rename_i h o r heq
      have hno := sshMatch_owner_no_slash heq
      simp only [Option.some.injEq] at hp
      subst hp
      exact hno
    · exact absurd hp (by simp)

/-- Every parsed descriptor is built by `createPlatform`. -/
theorem parse_shape {url : String} {p : GitPlatform}
    (hp : parseGitRemoteUrl url = some p) :
    ∃ h o r : String, p = createPlatform h o r := by
  unfold parseGitRemoteUrl at hp
  simp only [] at hp
  split at hp
  · rename_i h o r heq
    simp only [Option.some.injEq] at hp
    exact ⟨⟨h⟩, ⟨o⟩, ⟨r⟩, hp.symm⟩
  · split at hp
    · rename_i h o r heq
      simp only [Option.some.injEq] at hp
      exact ⟨⟨h⟩, ⟨o⟩, ⟨r⟩, hp.symm⟩
    · exact absurd hp (by simp)

/-! ## Field lemmas for `createPlatform` -/

/-- The `isGitHub` flag is exactly the substring test, since
`github.com` itself contains `github`. -/
theorem createPlatform_isGitHub (h o r : String) :
    (createPlatform h o r).isGitHub = containsSub (strToLower h) "github" := by
  show (strToLower h == "github.com" || containsSub (strToLower h) "github") = _
  cases hb : strToLower h == "github.com"
  · simp
  · have he : strToLower h = "github.com" := by simpa using hb
    simp only [Bool.true_or]
    rw [he]
    decide

/-- The `type` field is decided by `isGitHub`. -/
theorem createPlatform_type_eq (h o r : String) :
    (createPlatform h o r).type =
      if (createPlatform h o r).isGitHub then "github" else "gitlab" := rfl

/-- Default-to-GitLab: a host not classified GitHub is classified
GitLab. -/
theorem createPlatform_isGitLab_of_not_gh (h o r : String)
    (hg : (createPlatform h o r).isGitHub = false) :
    (createPlatform h o r).isGitLab = true := by
  have hb : (strToLower h == "github.com") = false := by
    have := createPlatform_isGitHub h o r
    rw [hg] at this
    cases hb : strToLower h == "github.com"
    · rfl
    · have he : strToLower h = "github.com" := by simpa using hb
      rw [he] at this
      exact absurd this.symm (by decide)
  show (strToLower h == "gitlab.com" || containsSub (strToLower h) "gitlab" ||
      (!(createPlatform h o r).isGitHub && strToLower h != "github.com")) = true
  rw [hg]
  simp only [Bool.not_false, Bool.true_and, Bool.or_eq_true, beq_iff_eq, bne_iff_ne,
    ne_eq]
  exact Or.inr (by simpa using hb)

/-- A GitHub-classified host whose name lacks the substring `gitlab` gets
`isGitLab = false`. -/
theorem createPlatform_isGitLab_false_of (h o r : String)
    (hg : (createPlatform h o r).isGitHub = true)
    (hng : containsSub (strToLower h) "gitlab" = false) :
    (createPlatform h o r).isGitLab = false := by
  have hb : (strToLower h == "gitlab.com") = false := by
    cases hb : strToLower h == "gitlab.com"
    · rfl
    · have he : strToLower h = "gitlab.com" := by simpa using hb
      rw [he] at hng
      exact absurd hng (by decide)
  show (strToLower h == "gitlab.com" || containsSub (strToLower h) "gitlab" ||
      (!(createPlatform h o r).isGitHub && strToLower h != "github.com")) = false
  rw [hg, hb, hng]
  simp

/-- The stored host is the lowercased input host. -/
theorem createPlatform_host (h o r : String) :
    (createPlatform h o r).host = strToLower h := rfl

/-- Self-hosted means neither public `github.com` nor `gitlab.com`. -/
theorem createPlatform_isSelfHosted (h o r : String) :
    ((createPlatform h o r).isSelfHosted = true) ↔
      (strToLower h ≠ "github.com" ∧ strToLower h ≠ "gitlab.com") := by
  show (strToLower h != "github.com" && strToLower h != "gitlab.com") = true ↔ _
  simp [bne_iff_ne]

end AutoClaude

namespace AutoClaude

/-! ## Claims about the URL parser -/

/-- C1, counterexample: the claim asserts that owner parts with additional
'/'-separated segments parse with the full slash-joined namespace, in
particular `git@gitlab.com:group/subgroup/repo.git`; but the owner capture
`([^/]+)` cannot span a slash, so this URL matches neither shape and
`parseGitRemoteUrl` returns null. -/
theorem c1_nested_counterexample :
    parseGitRemoteUrl "git@gitlab.com:group/subgroup/repo.git" = none := by decide

/-- C1 (amended): the owner of every descriptor returned by
`parseGitRemoteUrl` is a single slash-free segment; a remote URL whose
owner part contains additional '/'-separated segments matches neither
shape and yields null, while single-segment URLs such as
`git@gitlab.com:group/repo.git` parse with owner `group` and fullName
`group/repo`. -/
theorem c1_owner_single_segment :
    (∀ (url : String) (p : GitPlatform), parseGitRemoteUrl url = some p →
      '/' ∉ p.owner.data) ∧
    (parseGitRemoteUrl "git@gitlab.com:group/repo.git").map
      (fun p => (p.owner, p.fullName)) = some ("group", "group/repo") :=
  ⟨fun _ _ hp => parse_owner_no_slash hp, by decide⟩

/-- C1, witness: the owner invariant applied to a concrete parsed URL. -/
theorem c1_owner_single_segment_witness :
    '/' ∉ (createPlatform "gitlab.com" "acme" "widgets").owner.data :=
  c1_owner_single_segment.1 "git@gitlab.com:acme/widgets.git"
    (createPlatform "gitlab.com" "acme" "widgets") (by decide)

/-- C2, counterexample: for a host containing both substrings `github` and
`gitlab` (here `gitlab.github.com`), the returned descriptor has
`isGitHub = true` and `isGitLab = true`, so exactly-one fails and
`type = 'gitlab' ↔ isGitLab` fails (its type is `github`). -/
theorem c2_both_true_counterexample :
    (parseGitRemoteUrl "https://gitlab.github.com/owner/repo").map
      (fun p => (p.isGitHub, p.isGitLab)) = some (true, true) := by decide

/-- C2 (amended): for every descriptor returned by `parseGitRemoteUrl`,
`fullName = owner ++ "/" ++ repo`, `type = "github"` iff `isGitHub`,
`type = "gitlab"` iff not `isGitHub`, at least one of the two booleans is
true, and exactly one is true whenever the host does not contain both the
substrings `github` and `gitlab`. -/
theorem c2_descriptor_invariants :
    ∀ (url : String) (p : GitPlatform), parseGitRemoteUrl url = some p →
      p.fullName = p.owner ++ "/" ++ p.repo ∧
      (p.type = "github" ↔ p.isGitHub = true) ∧
      (p.type = "gitlab" ↔ p.isGitHub = false) ∧
      (p.isGitHub = true ∨ p.isGitLab = true) ∧
      (¬(containsSub p.host "github" = true ∧ containsSub p.host "gitlab" = true) →
        ((p.isGitHub = true) ↔ (p.isGitLab = false))) := by
  intro url p hp
  obtain ⟨h, o, r, rfl⟩ := parse_shape hp
  refine ⟨rfl, ?_, ?_, ?_, ?_⟩
  · rw [createPlatform_type_eq]
    cases hb : (createPlatform h o r).isGitHub <;> simp [hb]
  · rw [createPlatform_type_eq]
    cases hb : (createPlatform h o r).isGitHub <;> simp [hb]
  · cases hb : (createPlatform h o r).isGitHub
    · exact Or.inr (createPlatform_isGitLab_of_not_gh h o r hb)
    · exact Or.inl rfl
  · intro hnb
    constructor
    · intro hg
      apply createPlatform_isGitLab_false_of h o r hg
      cases hc : containsSub (strToLower h) "gitlab"
      · rfl
      · exfalso
        apply hnb
        refine ⟨?_, ?_⟩
        · rw [createPlatform_host] at *
          rw [← createPlatform_isGitHub h o r]
          exact hg
        · rw [createPlatform_host]
          exact hc
    · intro hl
      cases hb : (createPlatform h o r).isGitHub
      · exact absurd (createPlatform_isGitLab_of_not_gh h o r hb)
          (by rw [hl]; simp)
      · rfl

/-- C2, witness: the `fullName` invariant applied to a concrete parsed
URL. -/
theorem c2_descriptor_invariants_witness :
    (createPlatform "gitlab.com" "owner" "repo").fullName =
      (createPlatform "gitlab.com" "owner" "repo").owner ++ "/" ++
        (createPlatform "gitlab.com" "owner" "repo").repo :=
  (c2_descriptor_invariants "https://gitlab.com/owner/repo.git"
    (createPlatform "gitlab.com" "owner" "repo") (by decide)).1

/-- C3: every returned descriptor has type `github` when the lowercased
host contains `github`, type `gitlab` for any other host, and
`isSelfHosted` true iff the lowercased host is neither `github.com` nor
`gitlab.com`. -/
theorem c3_classification :
    ∀ (url : String) (p : GitPlatform), parseGitRemoteUrl url = some p →
      (containsSub p.host "github" = true → p.type = "github") ∧
      (containsSub p.host "github" = false → p.type = "gitlab") ∧
      (p.isSelfHosted = true ↔ (p.host ≠ "github.com" ∧ p.host ≠ "gitlab.com")) := by
  intro url p hp
  obtain ⟨h, o, r, rfl⟩ := parse_shape hp
  refine ⟨?_, ?_, ?_⟩
  · intro hc
    rw [createPlatform_type_eq, createPlatform_isGitHub, createPlatform_host] at *
    rw [hc]
    rfl
  · intro hc
    rw [createPlatform_type_eq, createPlatform_isGitHub, createPlatform_host] at *
    rw [hc]
    rfl
  · rw [createPlatform_host]
    exact createPlatform_isSelfHosted h o r

/-- C3, witness: the default-to-GitLab rule with self-hosting flag on a
concrete third-party host. -/
theorem c3_classification_witness :
    (createPlatform "git.example.com" "owner" "repo").isSelfHosted = true :=
  ((c3_classification "git@git.example.com:owner/repo.git"
    (createPlatform "git.example.com" "owner" "repo") (by decide)).2.2).mpr
    (by decide)

/-- C4, counterexample: the claim asserts null for a Bitbucket URL, but a
well-formed Bitbucket remote matches the HTTPS shape and yields a
descriptor (classified gitlab by the default rule). -/
theorem c4_bitbucket_counterexample :
    (parseGitRemoteUrl "https://bitbucket.org/owner/repo.git").isSome = true := by
  decide

/-- C4 (amended): `parseGitRemoteUrl` returns null for every input that
(after trimming) matches neither the HTTPS shape nor the SSH shape — in
particular for the empty string and for `invalid-url` — but a well-formed
Bitbucket URL matches the HTTPS shape and yields a gitlab-classified
descriptor rather than null. -/
theorem c4_no_match_returns_null :
    parseGitRemoteUrl "" = none ∧
    parseGitRemoteUrl "invalid-url" = none ∧
    (∀ url : String, httpsMatch (trimList url.data) = none →
      sshMatch (trimList url.data) = none → parseGitRemoteUrl url = none) ∧
    (parseGitRemoteUrl "https://bitbucket.org/owner/repo.git").map
      (fun p => p.type) = some "gitlab" := by
  refine ⟨by decide, by decide, ?_, by decide⟩
  intro url h1 h2
  unfold parseGitRemoteUrl
  simp only []
  rw [h1, h2]

/-- C4, witness: the no-match rule applied to a concrete non-URL input. -/
theorem c4_no_match_returns_null_witness :
    parseGitRemoteUrl "not a remote" = none :=
  c4_no_match_returns_null.2.2.1 "not a remote" (by decide) (by decide)

end AutoClaude

namespace AutoClaude

/-! ## Claims about the detector cache and the factory -/

/-- A cache hit returns the cached value (a cached null included) and
leaves the state untouched: zero git invocations. -/
theorem detect_hit (resolve : String → String) (env : String → String → Option String)
    (path name : String) (st : DetectorState) (v : Option GitPlatform)
    (hhit : st.cache.lookup (resolve path) = some v) :
    detectGitPlatform resolve env path name false st = (v, st) := by
  unfold detectGitPlatform
  simp only []
  rw [hhit]
  simp

/-- A cache miss reads the remote URL and caches the outcome. -/
theorem detect_miss (resolve : String → String) (env : String → String → Option String)
    (path name : String) (st : DetectorState)
    (hmiss : st.cache.lookup (resolve path) = none) :
    detectGitPlatform resolve env path name false st =
      match getGitRemoteUrl env (resolve path) name with
      | none => (none, ⟨cacheSet (resolve path) none st.cache, st.gitCalls + 1⟩)
      | some url =>
        (parseGitRemoteUrl url,
         ⟨cacheSet (resolve path) (parseGitRemoteUrl url) st.cache, st.gitCalls + 1⟩) := by
  unfold detectGitPlatform
  simp only []
  rw [hmiss]
  simp

/-- Lookup after a cache write finds the written value. -/
theorem lookup_cacheSet (k : String) (v : Option GitPlatform)
    (c : List (String × Option GitPlatform)) :
    (cacheSet k v c).lookup k = some v := by
  simp [cacheSet, List.lookup]

/-- C5: on a fresh path the first `detectGitPlatform` call issues exactly
one git invocation and stores its result (null included, also when the
git command throws) under the resolved path; an immediately following
call for the same resolved path returns the cached value with the state
unchanged (zero invocations), and a call after `clearPlatformCache`
issues a new git invocation. -/
theorem c5_detect_cache :
    ∀ (resolve : String → String) (env : String → String → Option String)
      (path name : String) (st : DetectorState),
      st.cache.lookup (resolve path) = none →
      (detectGitPlatform resolve env path name false st).2.gitCalls = st.gitCalls + 1 ∧
      (detectGitPlatform resolve env path name false st).2.cache.lookup (resolve path) =
        some (detectGitPlatform resolve env path name false st).1 ∧
      (env (resolve path) name = none →
        (detectGitPlatform resolve env path name false st).1 = none) ∧
      detectGitPlatform resolve env path name false
          (detectGitPlatform resolve env path name false st).2 =
        ((detectGitPlatform resolve env path name false st).1,
         (detectGitPlatform resolve env path name false st).2) ∧
      (detectGitPlatform resolve env path name false
          (clearPlatformCache (detectGitPlatform resolve env path name false st).2)).2.gitCalls =
        (detectGitPlatform resolve env path name false st).2.gitCalls + 1 := by
  intro resolve env path name st hmiss
  rw [detect_miss resolve env path name st hmiss]
  have hclear : ∀ st' : DetectorState,
      (detectGitPlatform resolve env path name false (clearPlatformCache st')).2.gitCalls =
        (clearPlatformCache st').gitCalls + 1 := by
    intro st'
    rw [detect_miss resolve env path name (clearPlatformCache st')
      (by simp [clearPlatformCache])]
    cases hg : getGitRemoteUrl env (resolve path) name <;> simp
  cases hg : getGitRemoteUrl env (resolve path) name with
  | none =>
    refine ⟨rfl, lookup_cacheSet _ _ _, fun _ => rfl, ?_, ?_⟩
    · exact detect_hit resolve env path name _ none (lookup_cacheSet _ _ _)
    · exact hclear _
  | some url =>
    refine ⟨rfl, lookup_cacheSet _ _ _, ?_, ?_, ?_⟩
    · intro henv
      exfalso
      unfold getGitRemoteUrl at hg
      rw [henv] at hg
      simp at hg
    · exact detect_hit resolve env path name _ _ (lookup_cacheSet _ _ _)
    · exact hclear _

/-- C5, witness: one git invocation on the first detection for a fresh
path against a concrete environment. -/
theorem c5_detect_cache_witness :
    ((⟨[], 0⟩ : DetectorState).cache.lookup "/repo" = none) ∧
    (detectGitPlatform id (fun _ _ => some "git@gitlab.com:acme/widgets.git")
        "/repo" "origin" false ⟨[], 0⟩).2.gitCalls = 0 + 1 :=
  ⟨rfl,
   (c5_detect_cache id (fun _ _ => some "git@gitlab.com:acme/widgets.git")
     "/repo" "origin" ⟨[], 0⟩ rfl).1⟩

/-- C6: `createAdapter` returns a `GitHubAdapter` for type `github`, a
`GitLabAdapter` for type `gitlab`, and throws `Unsupported platform type`
for any other type value; `getAdapter` throws when detection yields null
and otherwise returns `createAdapter` of the detected descriptor. -/
theorem c6_factory_dispatch :
    (∀ p : GitPlatform, p.type = "github" →
      createAdapter p = .ok (.gitHubAdapter p)) ∧
    (∀ p : GitPlatform, p.type = "gitlab" →
      createAdapter p = .ok (.gitLabAdapter p)) ∧
    (∀ p : GitPlatform, p.type ≠ "github" → p.type ≠ "gitlab" →
      createAdapter p = .error ("Unsupported platform type: " ++ p.type)) ∧
    (∀ (resolve : String → String) (env : String → String → Option String)
       (path : String) (st : DetectorState),
      (detectGitPlatform resolve env path "origin" false st).1 = none →
      (getAdapter resolve env path st).1 = .error
        "Could not detect git platform. Make sure the project has a git remote configured.") ∧
    (∀ (resolve : String → String) (env : String → String → Option String)
       (path : String) (st : DetectorState) (q : GitPlatform),
      (detectGitPlatform resolve env path "origin" false st).1 = some q →
      (getAdapter resolve env path st).1 = createAdapter q) := by
  refine ⟨?_, ?_, ?_, ?_, ?_⟩
  · intro p hp; simp [createAdapter, hp]
  · intro p hp; simp [createAdapter, hp]
  · intro p h1 h2; simp [createAdapter, h1, h2]
  · intro resolve env path st hdet
    unfold getAdapter
    simp only []
    rw [hdet]
  · intro resolve env path st q hdet
    unfold getAdapter
    simp only []
    rw [hdet]

/-- C6, witness: dispatch on a concrete GitHub descriptor. -/
theorem c6_factory_dispatch_witness :
    createAdapter (createPlatform "github.com" "owner" "repo") =
      .ok (.gitHubAdapter (createPlatform "github.com" "owner" "repo")) :=
  c6_factory_dispatch.1 (createPlatform "github.com" "owner" "repo") (by decide)

end AutoClaude

namespace AutoClaude

/-! ## Claims about the GitLab release flow -/

/-- Lookup after a file write finds the written content. -/
theorem fsWrite_lookup (fs : Fs) (p c : String) :
    fsLookup (fsWrite fs p c) p = some c := by
  simp [fsWrite, fsLookup, List.lookup]

/-- After an unlink the path is absent. -/
theorem fsUnlink_lookup (fs : Fs) (p : String) :
    fsLookup (fsUnlinkIfExists fs p) p = none := by
  induction fs with
  | nil => rfl
  | cons e t ih =>
    simp only [fsUnlinkIfExists, fsLookup, List.filter] at *
    cases hb : (e.1 == p)
    · simp only [Bool.not_false, List.lookup]
      have : (p == e.1) = false := by
        simp only [beq_eq_false_iff_ne] at *
        exact fun h => hb h.symm
      rw [this]
      exact ih
    · simp only [Bool.not_true]
      exact ih

/-- Distinct timestamps give distinct notes-file names. -/
theorem glabNotesFileName_inj (tmp n₁ n₂ : String)
    (h : glabNotesFileName tmp n₁ = glabNotesFileName tmp n₂) : n₁ = n₂ := by
  unfold glabNotesFileName at h
  have hd := congrArg String.data h
  simp only [String.data_append] at hd
  have h1 := List.append_cancel_right hd
  have h2 := List.append_cancel_left h1
  exact String.ext h2

/-- C7: `createRelease` writes the release body to a uniquely named
(timestamp-keyed) notes file that the CLI invocation reads, the file is
gone from the store on every exit path (write failure, subcommand
success, subcommand non-zero exit, spawn error), the call never throws
(it is a total function), success holds exactly when the write succeeded
and the subcommand exited 0 (then `tagName` is returned), and every
failure carries an error message. -/
theorem c7_release_notes_file :
    ∀ (opts : CreateReleaseOptions) (tmp nowStr : String) (writeErr : Option String)
      (spawnF : Option String → SpawnOutcome) (releaseUrl? : Option String) (fs : Fs),
      fsLookup (gitlabCreateRelease opts tmp nowStr writeErr spawnF releaseUrl? fs).2
        (glabNotesFileName tmp nowStr) = none ∧
      ((gitlabCreateRelease opts tmp nowStr writeErr spawnF releaseUrl? fs).1.success = true ↔
        (writeErr = none ∧
          ∃ out err, spawnF (some opts.body) = .exited (some 0) out err)) ∧
      ((gitlabCreateRelease opts tmp nowStr writeErr spawnF releaseUrl? fs).1.success = true →
        (gitlabCreateRelease opts tmp nowStr writeErr spawnF releaseUrl? fs).1.tagName =
          some opts.tagName) ∧
      ((gitlabCreateRelease opts tmp nowStr writeErr spawnF releaseUrl? fs).1.success = false →
        ((gitlabCreateRelease opts tmp nowStr writeErr spawnF releaseUrl? fs).1.error).isSome
          = true) ∧
      (∀ n₁ n₂ : String, glabNotesFileName tmp n₁ = glabNotesFileName tmp n₂ → n₁ = n₂) := by
  intro opts tmp nowStr writeErr spawnF releaseUrl? fs
  unfold gitlabCreateRelease
  simp only []
  cases writeErr with
  | some msg =>
    refine ⟨fsUnlink_lookup _ _, ?_, ?_, ?_, glabNotesFileName_inj tmp⟩
    · simp
    · simp
    · simp
  | none =>
    rw [fsWrite_lookup fs (glabNotesFileName tmp nowStr) opts.body]
    cases hs : spawnF (some opts.body) with
    | exited code out stderr =>
      by_cases hc : code = some 0
      · subst hc
        simp only [if_pos rfl]
        refine ⟨fsUnlink_lookup _ _, ?_, fun _ => rfl, ?_, glabNotesFileName_inj tmp⟩
        · exact ⟨fun _ => ⟨by trivial, out, stderr, rfl⟩, fun _ => rfl⟩
        · intro h; exact absurd h (by simp)
      · simp only [if_neg hc]
        refine ⟨fsUnlink_lookup _ _, ?_, ?_, fun _ => rfl, glabNotesFileName_inj tmp⟩
        · constructor
          · intro h; exact absurd h (by simp)
          · rintro ⟨-, out', err', hEq⟩
            injection hEq with h1 h2 h3
            exact absurd h1 hc
        · intro h; exact absurd h (by simp)
    | errored msg =>
      refine ⟨fsUnlink_lookup _ _, ?_, ?_, fun _ => rfl, glabNotesFileName_inj tmp⟩
      · constructor
        · intro h; exact absurd h (by simp)
        · rintro ⟨-, out', err', hEq⟩
          exact absurd hEq (by simp)
      · intro h; exact absurd h (by simp)

/-- C7, witness: a successful release on concrete inputs returns the tag
name. -/
theorem c7_release_notes_file_witness :
    (gitlabCreateRelease ⟨"/repo", "1.0.0", "v1.0.0", "v1.0.0", "notes body", false, false⟩
      "/tmp" "1700000000000" none (fun _ => .exited (some 0) "" "") none []).1.tagName =
      some "v1.0.0" :=
  (c7_release_notes_file ⟨"/repo", "1.0.0", "v1.0.0", "v1.0.0", "notes body", false, false⟩
    "/tmp" "1700000000000" none (fun _ => .exited (some 0) "" "") none []).2.2.1 (by decide)

end AutoClaude

namespace AutoClaude

/-! ## Claims about the adapter error taxonomy, auth flow and validation -/

/-- C8: every underlying failure (thrown subprocess error, malformed
output, missing config) in `getToken`, `getUser`, `createRepo`,
`getBranches`, or `addGitRemote` makes both adapters return a thrown
`PlatformAdapterError` carrying the platform name and a cause — never a
silent empty or false result — whereas `listOrganizations` never throws
and returns an empty list on any failure. -/
theorem c8_error_taxonomy :
    (∀ e, throwsWith (githubGetToken (.error e)) "github") ∧
    throwsWith (githubGetToken (.ok "")) "github" ∧
    (∀ e parse, throwsWith (githubGetUser (.error e) parse) "github") ∧
    (∀ j m, throwsWith (githubGetUser (.ok j) (fun _ => .error m)) "github") ∧
    (∀ opts e createO, throwsWith (githubCreateRepo opts (.error e) createO) "github") ∧
    (∀ opts u e, throwsWith (githubCreateRepo opts (.ok u) (.error e)) "github") ∧
    (∀ repo e, throwsWith (githubGetBranches repo (.error e)).1 "github") ∧
    (∀ repo hadO e, throwsWith (githubAddGitRemote repo hadO (.error e)).1 "github") ∧
    (∀ host fe configO, throwsWith (gitlabGetToken host none fe configO) "gitlab") ∧
    (∀ host home configO, throwsWith (gitlabGetToken host (some home) false configO) "gitlab") ∧
    (∀ host home e, throwsWith (gitlabGetToken host (some home) true (.error e)) "gitlab") ∧
    (∀ host home, throwsWith
      (gitlabGetToken host (some home) true (.ok (fun _ => none))) "gitlab") ∧
    (∀ e parse, throwsWith (gitlabGetUser (.error e) parse) "gitlab") ∧
    (∀ j m, throwsWith (gitlabGetUser (.ok j) (fun _ => .error m)) "gitlab") ∧
    (∀ host opts e userO parse,
      throwsWith (gitlabCreateRepo host opts (.error e) userO parse) "gitlab") ∧
    (∀ host opts e parse,
      throwsWith (gitlabCreateRepo host opts (.ok ()) (.error e) parse) "gitlab") ∧
    (∀ cache repo o₁ e, throwsWith (gitlabGetBranches cache repo o₁ (.error e)).1 "gitlab") ∧
    (∀ repo e o₂, throwsWith (gitlabGetBranches [] repo (.error e) o₂).1 "gitlab") ∧
    (∀ host repo hadO e, throwsWith (gitlabAddGitRemote host repo hadO (.error e)).1 "gitlab") ∧
    (∀ e parse, githubListOrganizations (.error e) parse = []) ∧
    (∀ e parse, gitlabListOrganizations (.error e) parse = []) := by
  refine ⟨fun e => ⟨_, rfl, rfl, rfl⟩,
    ⟨_, rfl, rfl, rfl⟩,
    fun e parse => ⟨_, rfl, rfl, rfl⟩,
    fun j m => ⟨_, rfl, rfl, rfl⟩,
    ?_, ?_, ?_, ?_,
    fun host fe configO => ⟨_, rfl, rfl, rfl⟩,
    fun host home configO => ⟨_, rfl, rfl, rfl⟩,
    fun host home e => ⟨_, rfl, rfl, rfl⟩,
    fun host home => ⟨_, rfl, rfl, rfl⟩,
    fun e parse => ⟨_, rfl, rfl, rfl⟩,
    fun j m => ⟨_, rfl, rfl, rfl⟩,
    fun host opts e userO parse => ⟨_, rfl, rfl, rfl⟩,
    fun host opts e parse => ⟨_, rfl, rfl, rfl⟩,
    ?_, ?_, ?_,
    fun e parse => rfl,
    fun e parse => rfl⟩
  · intro opts e createO
    unfold githubCreateRepo
    by_cases hv : validRepoName opts.name = false
    · rw [if_pos hv]; exact ⟨_, rfl, rfl, rfl⟩
    · rw [if_neg hv]; exact ⟨_, rfl, rfl, rfl⟩
  · intro opts u e
    unfold githubCreateRepo
    by_cases hv : validRepoName opts.name = false
    · rw [if_pos hv]; exact ⟨_, rfl, rfl, rfl⟩
    · rw [if_neg hv]; exact ⟨_, rfl, rfl, rfl⟩
  · intro repo e
    unfold githubGetBranches
    by_cases hv : validRepoFullName repo = false
    · rw [if_pos hv]; exact ⟨_, rfl, rfl, rfl⟩
    · rw [if_neg hv]; exact ⟨_, rfl, rfl, rfl⟩
  · intro repo hadO e
    unfold githubAddGitRemote
    by_cases hv : validRepoFullName repo = false
    · rw [if_pos hv]; exact ⟨_, rfl, rfl, rfl⟩
    · rw [if_neg hv]; exact ⟨_, rfl, rfl, rfl⟩
  · intro cache repo o₁ e
    unfold gitlabGetBranches
    cases hpid : gitlabGetProjectId cache repo o₁ with
    | mk fst snd =>
      cases fst with
      | error err => exact ⟨_, rfl, rfl, rfl⟩
      | ok pid => exact ⟨_, rfl, rfl, rfl⟩
  · intro repo e o₂
    unfold gitlabGetBranches gitlabGetProjectId
    exact ⟨_, rfl, rfl, rfl⟩
  · intro host repo hadO e
    exact ⟨_, rfl, rfl, rfl⟩

/-- C9: for both adapters `startAuth` is total (never rejects) and the
result's `success` field equals `code === 0` at process close,
independently of the extraction oracle, the event script and the browser
outcome; a spawn error yields `success = false`; and on a zero exit code
`success` is true with `fallbackUrl` supplied exactly when the browser
did not open (equal to the extracted `authUrl`). -/
theorem c9_startauth_exit_code :
    (∀ extract browserOk events code,
      (githubStartAuth extract browserOk events (.closed code)).success =
        decide (code = some 0)) ∧
    (∀ extract browserOk events msg,
      (githubStartAuth extract browserOk events (.errored msg)).success = false) ∧
    (∀ extract browserOk events,
      (githubStartAuth extract browserOk events (.closed (some 0))).success = true ∧
      (githubStartAuth extract browserOk events (.closed (some 0))).fallbackUrl =
        (if (githubStartAuth extract browserOk events (.closed (some 0))).browserOpened
          then none
          else (githubStartAuth extract browserOk events (.closed (some 0))).authUrl)) ∧
    (∀ host extract browserOk events code,
      (gitlabStartAuth host extract browserOk events (.closed code)).success =
        decide (code = some 0)) ∧
    (∀ host extract browserOk events msg,
      (gitlabStartAuth host extract browserOk events (.errored msg)).success = false) ∧
    (∀ host extract browserOk events,
      (gitlabStartAuth host extract browserOk events (.closed (some 0))).success = true ∧
      (gitlabStartAuth host extract browserOk events (.closed (some 0))).fallbackUrl =
        (if (gitlabStartAuth host extract browserOk events (.closed (some 0))).browserOpened
          then none
          else (gitlabStartAuth host extract browserOk events (.closed (some 0))).authUrl)) := by
  refine ⟨?_, ?_, ?_, ?_, ?_, ?_⟩
  · intro extract browserOk events code
    unfold githubStartAuth
    by_cases hc : code = some 0 <;> simp [hc]
  · intro extract browserOk events msg
    rfl
  · intro extract browserOk events
    unfold githubStartAuth
    simp only [if_pos rfl]
    exact ⟨rfl, by cases hb : (List.foldl (ghAuthStep extract browserOk)
      ⟨"", "", false, none, "https://github.com/login/device", false⟩ events).browserOpened <;>
      simp [hb]⟩
  · intro host extract browserOk events code
    unfold gitlabStartAuth
    by_cases hc : code = some 0 <;> simp [hc]
  · intro host extract browserOk events msg
    rfl
  · intro host extract browserOk events
    unfold gitlabStartAuth
    simp only [if_pos rfl]
    exact ⟨rfl, by cases hb : (List.foldl (glAuthStep extract browserOk)
      ⟨"", "", false, "https://" ++ host ++ "/oauth/authorize", false⟩ events).browserOpened <;>
      simp [hb]⟩

/-- C10: `GitHubAdapter.getBranches` and `addGitRemote` reject every
argument failing the single-segment `owner/repo` regex before issuing any
subprocess call (count 0), any full name with two or more slashes fails
that regex, while `GitLabAdapter.getBranches` performs no format
validation: it always issues at least one subprocess call and succeeds on
arbitrary strings when the underlying calls succeed. -/
theorem c10_github_validates_format :
    (∀ repo : String, validRepoFullName repo = false → ∀ o,
      (githubGetBranches repo o).2 = 0 ∧
      throwsWith (githubGetBranches repo o).1 "github") ∧
    (∀ repo : String, validRepoFullName repo = false → ∀ hadO o,
      (githubAddGitRemote repo hadO o).2 = 0 ∧
      throwsWith (githubAddGitRemote repo hadO o).1 "github") ∧
    (∀ s : String, 2 ≤ s.data.count '/' → validRepoFullName s = false) ∧
    validRepoFullName "group/subgroup/repo" = false ∧
    (∀ cache repo o₁ o₂, 1 ≤ (gitlabGetBranches cache repo o₁ o₂).2.2) ∧
    (∀ (repo out₁ out₂ : String),
      (gitlabGetBranches [] repo (.ok out₁) (.ok out₂)).1 = .ok (linesNonEmpty out₂)) := by
  refine ⟨?_, ?_, ?_, by decide, ?_, ?_⟩
  · intro repo hv o
    unfold githubGetBranches
    rw [if_pos hv]
    exact ⟨rfl, _, rfl, rfl, rfl⟩
  · intro repo hv hadO o
    unfold githubAddGitRemote
    rw [if_pos hv]
    exact ⟨rfl, _, rfl, rfl, rfl⟩
  · intro s hc
    unfold validRepoFullName
    have hl := splitCh_length '/' s.data
    cases hs : splitCh '/' s.data with
    | nil => rfl
    | cons a t =>
      cases t with
      | nil => rfl
      | cons b t2 =>
        cases t2 with
        | nil =>
          rw [hs] at hl
          simp at hl
          omega
        | cons c t3 => rfl
  · intro cache repo o₁ o₂
    unfold gitlabGetBranches gitlabGetProjectId
    cases hc : cache.lookup repo
    · cases o₁ <;> cases o₂ <;> simp
    · cases o₂ <;> simp
  · intro repo out₁ out₂
    rfl

/-- C10, witness: the nested full name is rejected with zero subprocess
calls. -/
theorem c10_github_validates_format_witness :
    validRepoFullName "group/subgroup/repo" = false ∧
    (githubGetBranches "group/subgroup/repo" (.ok "main")).2 = 0 :=
  ⟨by decide,
   (c10_github_validates_format.1 "group/subgroup/repo" (by decide) (.ok "main")).1⟩

end AutoClaude
